import Mathlib

/-!
Shallow embedding of the product-catalog-service domain core (Go) in Lean 4.

Modelling conventions:
* `time.Time` is modelled as `Int` (nanoseconds since an epoch); Go's
  `t.Before(u)` is `t < u` and `t.After(u)` is `u < t`.
* A Go `*Money` wraps `value *big.Rat`; every method guards
  `m == nil || m.value == nil` identically, so a money reference is
  modelled as `Option ℚ` (`none` = nil pointer or nil-valued wrapper,
  `some q` = a valid value). `big.Rat` is kept in normalized form, as is
  Lean's `ℚ`.
* A Go `*Discount` is `Option Discount`; every constructed discount has a
  non-nil percentage (the constructor rejects nil), so the structure field
  is a plain `ℚ`.
* `ProductStatus` is a Go string type; it is modelled as `String` with the
  four named constants, since rehydration can inject any persisted string.
* `ChangeTracker` wraps `map[string]bool` used as a set of dirty field
  names; it is modelled as a structure wrapping `Finset String`.
* Methods that mutate the pointer receiver become functions returning the
  new `Product`; methods returning `error` return it alongside the state.
-/

namespace Catalog

/-- Go `time.Time`, ordered; `Before` is `<`, `After` is `>`. -/
abbrev Time := Int

/-- Money construction failure (Go: "money denominator must be > 0"). -/
inductive MoneyError where
  | InvalidDenominator
deriving DecidableEq, Repr

/-- Go `NewMoneyFromFraction`: rejects `denominator <= 0`, otherwise wraps
`big.NewRat(numerator, denominator)`, the normalized rational n/d. -/
def NewMoneyFromFraction (numerator denominator : Int) : Except MoneyError ℚ :=
  if denominator ≤ 0 then Except.error MoneyError.InvalidDenominator
  else Except.ok (Rat.divInt numerator denominator)

/-- Go `(*Money).MultiplyBy`: nil receiver, nil value or nil ratio give nil;
otherwise the exact rational product. -/
def Money.MultiplyBy : Option ℚ → Option ℚ → Option ℚ
  | none, _ => none
  | _, none => none
  | some v, some ratio => some (v * ratio)

/-- Go `(*Money).Subtract`: nil on either side gives nil; otherwise the
exact rational difference. -/
def Money.Subtract : Option ℚ → Option ℚ → Option ℚ
  | none, _ => none
  | _, none => none
  | some v, some o => some (v - o)

/-- Go `(*Money).Compare`: nil-or-nil-valued receivers sort below every
valid value and equal each other; valid values compare by `big.Rat.Cmp`. -/
def Money.Compare : Option ℚ → Option ℚ → Int
  | none, none => 0
  | none, some _ => -1
  | some _, none => 1
  | some a, some b => if a < b then -1 else if b < a then 1 else 0

/-- Go `(*Money).Fraction`: `(0, 1)` for nil, otherwise the numerator and
denominator of the normalized value. (For values built by
`NewMoneyFromFraction` from int64 arguments the reduced parts always fit
in int64, so Go's `Int64()` readback is exact on the reachable domain.) -/
def Money.Fraction : Option ℚ → Int × Int
  | none => (0, 1)
  | some q => (q.num, (q.den : Int))

/-- Discount construction failures. `PercentageRequired` is the Go nil
check, `InvalidDiscount` the percentage-bounds error ("discount percentage
must be between 0 and 1"), `InvalidDiscountPeriod` is
`ErrInvalidDiscountPeriod`. -/
inductive DiscountError where
  | PercentageRequired
  | InvalidDiscount
  | InvalidDiscountPeriod
deriving DecidableEq, Repr

/-- Go `Discount`: percentage rational plus validity window. Constructed
discounts always carry a non-nil percentage. -/
structure Discount where
  percentage : ℚ
  startAt : Time
  endAt : Time
deriving DecidableEq, Repr

/-- Go `NewDiscount`: nil percentage rejected; then bounds `0 ≤ pct ≤ 1`
(via two `Cmp` tests); then `end.Before(start)` rejected. -/
def NewDiscount (percentage : Option ℚ) (startT endT : Time) :
    Except DiscountError Discount :=
  match percentage with
  | none => Except.error DiscountError.PercentageRequired
  | some pct =>
    if pct < 0 ∨ 1 < pct then Except.error DiscountError.InvalidDiscount
    else if endT < startT then Except.error DiscountError.InvalidDiscountPeriod
    else Except.ok ⟨pct, startT, endT⟩

/-- Go `(*Discount).IsValidAt`: false on a nil receiver, false before
`startAt` or after `endAt`, true otherwise. -/
def Discount.IsValidAt (d : Option Discount) (t : Time) : Bool :=
  match d with
  | none => false
  | some d => if t < d.startAt then false else if d.endAt < t then false else true

/-- Go `ChangeTracker`: `dirtyFields map[string]bool` used as a set. -/
structure ChangeTracker where
  dirtyFields : Finset String
deriving DecidableEq

/-- Go `NewChangeTracker`: empty dirty set. -/
def NewChangeTracker : ChangeTracker := ⟨∅⟩

/-- Go `(*ChangeTracker).MarkDirty`. -/
def ChangeTracker.MarkDirty (ct : ChangeTracker) (field : String) : ChangeTracker :=
  ⟨insert field ct.dirtyFields⟩

/-- Go `(*ChangeTracker).Dirty`. -/
def ChangeTracker.Dirty (ct : ChangeTracker) (field : String) : Bool :=
  field ∈ ct.dirtyFields

/-- Go `(*ChangeTracker).Clear`: deletes every key. -/
def ChangeTracker.Clear (_ : ChangeTracker) : ChangeTracker := ⟨∅⟩

/-- Go product status string constants. -/
abbrev ProductStatus := String
def ProductStatusDraft : ProductStatus := "draft"
def ProductStatusActive : ProductStatus := "active"
def ProductStatusInactive : ProductStatus := "inactive"
def ProductStatusArchived : ProductStatus := "archived"

/-- Go change-tracking field name constants. -/
def FieldName : String := "name"
def FieldDescription : String := "description"
def FieldCategory : String := "category"
def FieldBasePrice : String := "base_price"
def FieldDiscount : String := "discount"
def FieldStatus : String := "status"
def FieldArchivedAt : String := "archived_at"

/-- Go `DomainEvent` interface with its six concrete event structs; each
carries `occurredAt` (the base event) and the product id. -/
inductive DomainEvent where
  | ProductCreated (occurredAt : Time) (productId : String)
  | ProductUpdated (occurredAt : Time) (productId : String)
  | ProductActivated (occurredAt : Time) (productId : String)
  | ProductDeactivated (occurredAt : Time) (productId : String)
  | DiscountApplied (occurredAt : Time) (productId : String)
  | DiscountRemoved (occurredAt : Time) (productId : String)
deriving DecidableEq, Repr

/-- Domain errors from the aggregate (Go `ErrProductNotActive`,
`ErrInvalidDiscountPeriod`). -/
inductive DomainError where
  | ProductNotActive
  | InvalidDiscountPeriod
deriving DecidableEq, Repr

/-- Go `Product` aggregate root. -/
structure Product where
  id : String
  name : String
  description : String
  category : String
  basePrice : Option ℚ
  discount : Option Discount
  status : ProductStatus
  archivedAt : Option Time
  createdAt : Time
  updatedAt : Time
  changes : ChangeTracker
  events : List DomainEvent
deriving DecidableEq

/-- Go `NewProduct`: status Inactive, five initial dirty fields in source
order, one `ProductCreatedEvent`. -/
def NewProduct (id name description category : String) (basePrice : Option ℚ)
    (now : Time) : Product :=
  { id := id, name := name, description := description, category := category
    basePrice := basePrice, discount := none
    status := ProductStatusInactive, archivedAt := none
    createdAt := now, updatedAt := now
    changes :=
      ((((NewChangeTracker.MarkDirty FieldName).MarkDirty
        FieldDescription).MarkDirty FieldCategory).MarkDirty
        FieldBasePrice).MarkDirty FieldStatus
    events := [DomainEvent.ProductCreated now id] }

/-- Go `RehydrateProduct`: rebuilds from persisted state, fresh tracker,
no events. -/
def RehydrateProduct (id name description category : String)
    (basePrice : Option ℚ) (discount : Option Discount)
    (status : ProductStatus) (archivedAt : Option Time)
    (createdAt updatedAt : Time) : Product :=
  { id := id, name := name, description := description, category := category
    basePrice := basePrice, discount := discount
    status := status, archivedAt := archivedAt
    createdAt := createdAt, updatedAt := updatedAt
    changes := NewChangeTracker
    events := [] }

/-- Go `(*Product).UpdateDetails`: three independent compare-and-set
branches over name/description/category (empty string means "no change"),
then a single `ProductUpdatedEvent` and `updatedAt` bump if anything
changed. -/
def Product.UpdateDetails (p : Product) (name description category : String)
    (now : Time) : Product :=
  let nameChanged := name ≠ "" ∧ name ≠ p.name
  let p1 := if nameChanged then
    { p with name := name, changes := p.changes.MarkDirty FieldName } else p
  let descChanged := description ≠ "" ∧ description ≠ p.description
  let p2 := if descChanged then
    { p1 with description := description
              changes := p1.changes.MarkDirty FieldDescription } else p1
  let catChanged := category ≠ "" ∧ category ≠ p.category
  let p3 := if catChanged then
    { p2 with category := category
              changes := p2.changes.MarkDirty FieldCategory } else p2
  if nameChanged ∨ descChanged ∨ catChanged then
    { p3 with updatedAt := now
              events := p3.events ++ [DomainEvent.ProductUpdated now p3.id] }
  else p3

/-- Go `(*Product).Activate`: no-op when already Active or when Archived
(the code comments that archived products are immutable); otherwise
transitions to Active, bumps `updatedAt`, marks status dirty, emits
`ProductActivatedEvent`. -/
def Product.Activate (p : Product) (now : Time) : Product :=
  if p.status = ProductStatusActive then p
  else if p.status = ProductStatusArchived then p
  else
    { p with status := ProductStatusActive, updatedAt := now
             changes := p.changes.MarkDirty FieldStatus
             events := p.events ++ [DomainEvent.ProductActivated now p.id] }

/-- Go `(*Product).Deactivate`: symmetric to `Activate`. -/
def Product.Deactivate (p : Product) (now : Time) : Product :=
  if p.status = ProductStatusInactive then p
  else if p.status = ProductStatusArchived then p
  else
    { p with status := ProductStatusInactive, updatedAt := now
             changes := p.changes.MarkDirty FieldStatus
             events := p.events ++ [DomainEvent.ProductDeactivated now p.id] }

/-- Go `(*Product).Archive`: idempotent when already Archived; otherwise
sets status Archived, sets `archivedAt`, bumps `updatedAt`, marks status
and archivedAt dirty; emits no domain event. -/
def Product.Archive (p : Product) (now : Time) : Product :=
  if p.status = ProductStatusArchived then p
  else
    { p with status := ProductStatusArchived, archivedAt := some now
             updatedAt := now
             changes := (p.changes.MarkDirty FieldStatus).MarkDirty FieldArchivedAt }

/-- Go `(*Product).ApplyDiscount`: `ErrProductNotActive` unless Active;
`ErrInvalidDiscountPeriod` when the discount is nil or not valid at `now`;
otherwise replaces the discount, bumps `updatedAt`, marks discount dirty,
emits `DiscountAppliedEvent`. Returns the error (if any) together with the
resulting aggregate state (unchanged on every error path, since the Go
method returns before any assignment). -/
def Product.ApplyDiscount (p : Product) (discount : Option Discount)
    (now : Time) : Option DomainError × Product :=
  if p.status ≠ ProductStatusActive then (some DomainError.ProductNotActive, p)
  else if discount = none ∨ Discount.IsValidAt discount now = false then
    (some DomainError.InvalidDiscountPeriod, p)
  else
    (none, { p with discount := discount, updatedAt := now
                    changes := p.changes.MarkDirty FieldDiscount
                    events := p.events ++ [DomainEvent.DiscountApplied now p.id] })

/-- Go `(*Product).RemoveDiscount`: no-op when no discount is present;
otherwise clears it, bumps `updatedAt`, marks discount dirty, emits
`DiscountRemovedEvent`. -/
def Product.RemoveDiscount (p : Product) (now : Time) : Product :=
  match p.discount with
  | none => p
  | some _ =>
    { p with discount := none, updatedAt := now
             changes := p.changes.MarkDirty FieldDiscount
             events := p.events ++ [DomainEvent.DiscountRemoved now p.id] }

/-- Go `(*Product).DomainEvents` (returns a copy of the slice). -/
def Product.DomainEvents (p : Product) : List DomainEvent := p.events

/-- Go `(*Product).ClearDomainEvents`. -/
def Product.ClearDomainEvents (p : Product) : Product := { p with events := [] }

/-- Go `services.PricingCalculator.EffectivePrice`: nil for a nil product
or nil base price; the base price itself when the discount is absent or
not valid at `t`; otherwise `base.MultiplyBy(1 - percentage)` computed
with exact rationals. -/
def PricingCalculator.EffectivePrice (pOpt : Option Product) (t : Time) : Option ℚ :=
  match pOpt with
  | none => none
  | some p =>
    match p.basePrice with
    | none => none
    | some base =>
      match p.discount with
      | none => some base
      | some d =>
        if Discount.IsValidAt (some d) t then
          Money.MultiplyBy (some base) (some (1 - d.percentage))
        else some base

/-- Usecase-level failures surfaced by the interactors. -/
inductive UsecaseError where
  | NotFound
  | InvalidBasePrice (e : MoneyError)
  | InvalidDiscountArg (e : DiscountError)
  | DomainFailure (e : DomainError)
  | CommitFailed
deriving DecidableEq, Repr

/-- Go `updateproduct.Interactor.Execute`, after the aggregate has been
loaded: nil request fields become empty strings, `UpdateDetails` runs,
the commit plan (aggregate update mutation plus one enriched outbox insert
per pending event — built from a copy of the events, never touching the
aggregate) is applied atomically; `commitOk` is the committer outcome.
Only on success is `ClearDomainEvents` called; the tracker is never
cleared. Returns the error outcome and the in-memory aggregate state the
caller is left with. -/
def UpdateProductExecute (product : Product)
    (name description category : Option String) (now : Time)
    (commitOk : Bool) : Option UsecaseError × Product :=
  let nameArg := name.getD ""
  let descArg := description.getD ""
  let catArg := category.getD ""
  let product := product.UpdateDetails nameArg descArg catArg now
  if commitOk then (none, product.ClearDomainEvents)
  else (some UsecaseError.CommitFailed, product)

/-- Go `applydiscount.Interactor.Execute`, after the aggregate has been
loaded: builds the `Discount` value object (percentage is the exact
rational `PercentageNumerator/PercentageDenominator`), calls
`ApplyDiscount`, then applies the commit plan atomically; `commitOk` is
the committer outcome. Only on success is `ClearDomainEvents` called; the
tracker is never cleared. -/
def ApplyDiscountExecute (product : Product) (percentage : ℚ)
    (startDate endDate : Time) (now : Time)
    (commitOk : Bool) : Option UsecaseError × Product :=
  match NewDiscount (some percentage) startDate endDate with
  | Except.error e => (some (UsecaseError.InvalidDiscountArg e), product)
  | Except.ok d =>
    match product.ApplyDiscount (some d) now with
    | (some e, product) => (some (UsecaseError.DomainFailure e), product)
    | (none, product) =>
      if commitOk then (none, product.ClearDomainEvents)
      else (some UsecaseError.CommitFailed, product)

/-- Go `archiveproduct.Interactor.Execute`, after the aggregate has been
loaded: calls `Archive`, commits the update mutation (no outbox events);
it calls neither `ClearDomainEvents` nor the tracker's clear. -/
def ArchiveProductExecute (product : Product) (now : Time)
    (commitOk : Bool) : Option UsecaseError × Product :=
  let product := product.Archive now
  if commitOk then (none, product)
  else (some UsecaseError.CommitFailed, product)

/-- Go `createproduct.Interactor.Execute`: builds the base price Money
(propagating the construction error), constructs the aggregate with
`NewProduct` (which records the Created event and initial dirty fields),
builds the commit plan (one insert mutation plus one enriched outbox
insert per pending event, from a copy of the events) and applies it
atomically; `commitOk` is the committer outcome. Only on success is
`ClearDomainEvents` called; the tracker is never cleared. Returns the
outcome and the in-memory aggregate (when construction succeeded). -/
def CreateProductExecute (id name description category : String)
    (basePriceNumerator basePriceDenominator : Int) (now : Time)
    (commitOk : Bool) : Option UsecaseError × Option Product :=
  match NewMoneyFromFraction basePriceNumerator basePriceDenominator with
  | Except.error e => (some (UsecaseError.InvalidBasePrice e), none)
  | Except.ok basePrice =>
    let product := NewProduct id name description category (some basePrice) now
    if commitOk then (none, some product.ClearDomainEvents)
    else (some UsecaseError.CommitFailed, some product)

/-- Modelled from the spec: the activate-product interactor's source file
(usecases/activate_product) is missing from src — only its gRPC handler,
request mapper and dependency wiring appear there. Per the spec's
mutation-batch protocol (load the aggregate, invoke `Activate` with the
injected clock's now, build the batch of the dirty-field update plus one
enriched insert per pending event, commit atomically, clear the in-memory
events only on success), as the exact mirror of the deactivate interactor
that is in src. -/
def ActivateProductExecute (product : Product) (now : Time)
    (commitOk : Bool) : Option UsecaseError × Product :=
  let product := product.Activate now
  if commitOk then (none, product.ClearDomainEvents)
  else (some UsecaseError.CommitFailed, product)

/-- Go `deactivateproduct.Interactor.Execute`, after the aggregate has
been loaded: calls `Deactivate`, builds and applies the commit plan
atomically; only on success is `ClearDomainEvents` called; the tracker is
never cleared. -/
def DeactivateProductExecute (product : Product) (now : Time)
    (commitOk : Bool) : Option UsecaseError × Product :=
  let product := product.Deactivate now
  if commitOk then (none, product.ClearDomainEvents)
  else (some UsecaseError.CommitFailed, product)

/-- Go `removediscount.Interactor.Execute`, after the aggregate has been
loaded: calls `RemoveDiscount`, builds and applies the commit plan
atomically; only on success is `ClearDomainEvents` called; the tracker is
never cleared. -/
def RemoveDiscountExecute (product : Product) (now : Time)
    (commitOk : Bool) : Option UsecaseError × Product :=
  let product := product.RemoveDiscount now
  if commitOk then (none, product.ClearDomainEvents)
  else (some UsecaseError.CommitFailed, product)

/-! ## Theorems -/

/-- C7: for every valid input, `NewProduct` returns a product with status
Inactive and a pending-events list holding exactly one Created event;
`RehydrateProduct` returns a product with an empty pending-events list and
no dirty fields, regardless of the persisted state passed in. -/
theorem new_and_rehydrate_construction_spec :
    (∀ (id name description category : String) (basePrice : Option ℚ) (now : Time),
      (NewProduct id name description category basePrice now).status
          = ProductStatusInactive ∧
      (NewProduct id name description category basePrice now).events
          = [DomainEvent.ProductCreated now id]) ∧
    (∀ (id name description category : String) (basePrice : Option ℚ)
        (discount : Option Discount) (status : ProductStatus)
        (archivedAt : Option Time) (createdAt updatedAt : Time),
      (RehydrateProduct id name description category basePrice discount status
          archivedAt createdAt updatedAt).events = [] ∧
      (RehydrateProduct id name description category basePrice discount status
          archivedAt createdAt updatedAt).changes = NewChangeTracker) := by
  refine ⟨fun _ _ _ _ _ _ => ⟨rfl, rfl⟩, fun _ _ _ _ _ _ _ _ _ _ => ⟨rfl, rfl⟩⟩

/-- C8: constructing Money from an integer numerator and a positive
denominator succeeds and yields the reduced rational equal to n/d (the
Fraction readback has positive denominator, coprime parts, and ratio
exactly n/d); and multiplying any Money by a nonzero ratio r and then by
1/r gives back exactly the original value. -/
theorem money_fraction_roundtrip_spec :
    (∀ (n d : Int), 0 < d →
      NewMoneyFromFraction n d = Except.ok (Rat.divInt n d) ∧
      0 < (Money.Fraction (some (Rat.divInt n d))).2 ∧
      Int.gcd (Money.Fraction (some (Rat.divInt n d))).1
          (Money.Fraction (some (Rat.divInt n d))).2 = 1 ∧
      ((Money.Fraction (some (Rat.divInt n d))).1 : ℚ)
          / ((Money.Fraction (some (Rat.divInt n d))).2 : ℚ)
          = (n : ℚ) / (d : ℚ)) ∧
    (∀ (m : Option ℚ) (r : ℚ), r ≠ 0 →
      Money.MultiplyBy (Money.MultiplyBy m (some r)) (some r⁻¹) = m) := by
  constructor
  · intro n d hd
    refine ⟨?_, ?_, ?_, ?_⟩
    · simp [NewMoneyFromFraction, not_le.mpr hd]
    · show (0 : Int) < ((Rat.divInt n d).den : Int)
      exact_mod_cast (Rat.divInt n d).pos
    · simpa [Money.Fraction, Int.gcd, Nat.Coprime] using (Rat.divInt n d).reduced
    · rw [show ((Money.Fraction (some (Rat.divInt n d))).1 : ℚ)
            = ((Rat.divInt n d).num : ℚ) from rfl,
          show ((Money.Fraction (some (Rat.divInt n d))).2 : ℚ)
            = ((Rat.divInt n d).den : ℚ) by norm_cast,
          Rat.num_div_den, Rat.divInt_eq_div]
  · intro m r hr
    cases m with
    | none => rfl
    | some v => simp [Money.MultiplyBy, mul_assoc, mul_inv_cancel₀ hr]

/-- C8 witness at n = 3, d = 6 (reduced to 1/2) and m = 5, r = 2/3. -/
theorem money_fraction_roundtrip_spec_witness :
    NewMoneyFromFraction 3 6 = Except.ok (Rat.divInt 3 6) ∧
    Money.MultiplyBy (Money.MultiplyBy (some 5) (some (2 / 3 : ℚ)))
        (some ((2 / 3 : ℚ)⁻¹)) = some 5 :=
  ⟨(money_fraction_roundtrip_spec.1 3 6 (by decide)).1,
   money_fraction_roundtrip_spec.2 (some 5) (2 / 3 : ℚ) (by norm_num)⟩

/-- C9: `NewDiscount` fails exactly when the percentage is outside [0, 1]
(error `InvalidDiscount`) or the end precedes the start (error
`InvalidDiscountPeriod`, checked after the bounds), and succeeds with the
given data otherwise; `IsValidAt t` on a discount is true exactly when
`startAt ≤ t ≤ endAt`, and is false on an absent discount at every t. -/
theorem discount_construction_validity_spec :
    (∀ (pct : ℚ) (startT endT : Time),
      ((∃ err, NewDiscount (some pct) startT endT = Except.error err)
          ↔ (pct < 0 ∨ 1 < pct ∨ endT < startT)) ∧
      (NewDiscount (some pct) startT endT
            = Except.error DiscountError.InvalidDiscount
          ↔ (pct < 0 ∨ 1 < pct)) ∧
      (NewDiscount (some pct) startT endT
            = Except.error DiscountError.InvalidDiscountPeriod
          ↔ (¬(pct < 0 ∨ 1 < pct) ∧ endT < startT)) ∧
      (¬(pct < 0 ∨ 1 < pct) → ¬(endT < startT) →
        NewDiscount (some pct) startT endT = Except.ok ⟨pct, startT, endT⟩)) ∧
    (∀ (d : Discount) (t : Time),
      Discount.IsValidAt (some d) t = true ↔ (d.startAt ≤ t ∧ t ≤ d.endAt)) ∧
    (∀ t : Time, Discount.IsValidAt none t = false) := by
  refine ⟨fun pct startT endT => ?_, fun d t => ?_, fun t => rfl⟩
  · have hdef : NewDiscount (some pct) startT endT
        = (if pct < 0 ∨ 1 < pct then Except.error DiscountError.InvalidDiscount
           else if endT < startT then Except.error DiscountError.InvalidDiscountPeriod
           else Except.ok ⟨pct, startT, endT⟩) := rfl
    rw [hdef]
    by_cases hb : pct < 0 ∨ 1 < pct
    · rw [if_pos hb]
      refine ⟨⟨fun _ => by tauto, fun _ => ⟨_, rfl⟩⟩,
              ⟨fun _ => hb, fun _ => rfl⟩,
              ⟨fun h => absurd (Except.error.inj h) (by decide),
               fun h => absurd hb h.1⟩,
              fun h => absurd hb h⟩
    · rw [if_neg hb]
      by_cases hp : endT < startT
      · rw [if_pos hp]
        refine ⟨⟨fun _ => by tauto, fun _ => ⟨_, rfl⟩⟩,
                ⟨fun h => absurd (Except.error.inj h) (by decide),
                 fun h => absurd h hb⟩,
                ⟨fun _ => ⟨hb, hp⟩, fun _ => rfl⟩,
                fun _ h => absurd hp h⟩
      · rw [if_neg hp]
        refine ⟨⟨fun h => ?_, fun h => absurd h (by tauto)⟩,
                ⟨fun h => by simp at h, fun h => absurd h hb⟩,
                ⟨fun h => by simp at h, fun h => absurd h.2 hp⟩,
                fun _ _ => rfl⟩
        obtain ⟨err, he⟩ := h
        simp at he
  · have hdef : Discount.IsValidAt (some d) t
        = (if t < d.startAt then false else if d.endAt < t then false else true) := rfl
    rw [hdef]
    split_ifs with h1 h2
    · exact iff_of_false (by simp) (fun hc => absurd hc.1 (not_le.mpr h1))
    · exact iff_of_false (by simp) (fun hc => absurd hc.2 (not_le.mpr h2))
    · exact iff_of_true rfl ⟨not_lt.mp h1, not_lt.mp h2⟩

/-- C9 witness: a 20% discount over [0, 100] is constructed successfully
and is valid at t = 50. -/
theorem discount_construction_validity_spec_witness :
    NewDiscount (some (1 / 5 : ℚ)) 0 100
        = Except.ok ⟨(1 / 5 : ℚ), 0, 100⟩ ∧
    Discount.IsValidAt (some ⟨(1 / 5 : ℚ), 0, 100⟩) 50 = true :=
  ⟨((discount_construction_validity_spec.1 (1 / 5 : ℚ) 0 100).2.2.2
      (by norm_num) (by norm_num)),
   ((discount_construction_validity_spec.2.1 ⟨(1 / 5 : ℚ), 0, 100⟩ 50).mpr
      (by constructor <;> decide))⟩

/-- C10: every Money operation is total on absent (nil or nil-valued)
operands: Fraction of nil is (0, 1); MultiplyBy and Subtract give nil when
any operand is nil; Compare is a total order in which nil equals nil and
is strictly below every valid value (reflexivity, antisymmetry in sign,
zero exactly on equality, and transitivity of the ≤-fragment). -/
theorem money_nil_safety_total_order_spec :
    (Money.Fraction none = (0, 1)) ∧
    (∀ x : Option ℚ, Money.MultiplyBy none x = none ∧
        Money.MultiplyBy x none = none ∧
        Money.Subtract none x = none ∧ Money.Subtract x none = none) ∧
    (Money.Compare none none = 0) ∧
    (∀ q : ℚ, Money.Compare none (some q) = -1 ∧
        Money.Compare (some q) none = 1) ∧
    (∀ m : Option ℚ, Money.Compare m m = 0) ∧
    (∀ a b : Option ℚ, Money.Compare a b = - Money.Compare b a) ∧
    (∀ a b : Option ℚ, Money.Compare a b = 0 ↔ a = b) ∧
    (∀ a b c : Option ℚ, Money.Compare a b ≤ 0 → Money.Compare b c ≤ 0 →
        Money.Compare a c ≤ 0) := by
  have hcmp : ∀ a b : ℚ, Money.Compare (some a) (some b)
      = if a < b then -1 else if b < a then 1 else 0 := fun a b => rfl
  have hlt : ∀ {a b : ℚ}, a < b → Money.Compare (some a) (some b) = -1 :=
    fun h => by rw [hcmp, if_pos h]
  have hgt : ∀ {a b : ℚ}, b < a → Money.Compare (some a) (some b) = 1 :=
    fun h => by rw [hcmp, if_neg (asymm h), if_pos h]
  have hsame : ∀ a : ℚ, Money.Compare (some a) (some a) = 0 :=
    fun a => by rw [hcmp, if_neg (lt_irrefl a), if_neg (lt_irrefl a)]
  refine ⟨rfl,
      fun x => ⟨by cases x <;> rfl, by cases x <;> rfl,
                by cases x <;> rfl, by cases x <;> rfl⟩,
      rfl, fun q => ⟨rfl, rfl⟩, ?_, ?_, ?_, ?_⟩
  · intro m
    cases m with
    | none => rfl
    | some a => exact hsame a
  · intro a b
    cases a with
    | none =>
      cases b with
      | none => exact (by decide : (0 : Int) = -0)
      | some q => exact (by decide : (-1 : Int) = -(1 : Int))
    | some a =>
      cases b with
      | none => exact (by decide : (1 : Int) = -(-1 : Int))
      | some b =>
        rcases lt_trichotomy a b with h | h | h
        · rw [hlt h, hgt h]
        · subst h
          rw [hsame a]
          all_goals decide
        · rw [hgt h, hlt h]
          all_goals decide
  · intro a b
    cases a with
    | none =>
      cases b with
      | none => exact iff_of_true rfl rfl
      | some q =>
        exact iff_of_false (by decide : ¬((-1 : Int) = 0)) (by simp)
    | some a =>
      cases b with
      | none => exact iff_of_false (by decide : ¬((1 : Int) = 0)) (by simp)
      | some b =>
        constructor
        · intro h
          by_cases h1 : a < b
          · rw [hlt h1] at h
            exact absurd h (by decide)
          · by_cases h2 : b < a
            · rw [hgt h2] at h
              exact absurd h (by decide)
            · exact congrArg some (le_antisymm (not_lt.mp h2) (not_lt.mp h1))
        · intro h
          injection h with h
          subst h
          exact hsame a
  · intro a b c hab hbc
    cases a with
    | none =>
      cases c with
      | none => exact (by decide : (0 : Int) ≤ 0)
      | some q => exact (by decide : (-1 : Int) ≤ 0)
    | some a =>
      cases b with
      | none => exact absurd hab (by decide : ¬((1 : Int) ≤ 0))
      | some b =>
        cases c with
        | none => exact absurd hbc (by decide : ¬((1 : Int) ≤ 0))
        | some c =>
          by_cases h1 : a < b
          · by_cases h2 : b < c
            · rw [hlt (lt_trans h1 h2)]
              all_goals decide
            · have hcb : ¬ c < b := fun hcb => by
                rw [hgt hcb] at hbc
                exact absurd hbc (by decide)
              have hbceq : b = c := le_antisymm (not_lt.mp hcb) (not_lt.mp h2)
              subst hbceq
              rw [hlt h1]
              all_goals decide
          · have hba : ¬ b < a := fun hba => by
              rw [hgt hba] at hab
              exact absurd hab (by decide)
            have habeq : a = b := le_antisymm (not_lt.mp hba) (not_lt.mp h1)
            subst habeq
            exact hbc

/-- C10 witness: transitivity applied at some 1, some 2, some 3, with the
nil facts instantiated at 0. -/
theorem money_nil_safety_total_order_spec_witness :
    Money.Compare (some (1 : ℚ)) (some (3 : ℚ)) ≤ 0 ∧
    Money.Compare none (some (0 : ℚ)) = -1 :=
  ⟨money_nil_safety_total_order_spec.2.2.2.2.2.2.2 (some 1) (some 2) (some 3)
      (by decide) (by decide),
   (money_nil_safety_total_order_spec.2.2.2.1 (0 : ℚ)).1⟩

/-- C3: for a product with a present base price, the effective price at t
is exactly the base price when there is no discount or the discount is not
valid at t, and exactly basePrice * (1 - percentage) as an exact rational
when the discount is valid at t. (The embedding is a pure function of the
product, so the call cannot mutate it.) -/
theorem effective_price_spec (p : Product) (base : ℚ) (t : Time)
    (hb : p.basePrice = some base) :
    ((p.discount = none ∨ Discount.IsValidAt p.discount t = false) →
      PricingCalculator.EffectivePrice (some p) t = some base) ∧
    (∀ d, p.discount = some d → Discount.IsValidAt p.discount t = true →
      PricingCalculator.EffectivePrice (some p) t
        = some (base * (1 - d.percentage))) := by
  constructor
  · intro h
    cases hd : p.discount with
    | none => simp [PricingCalculator.EffectivePrice, hb, hd]
    | some d =>
      rcases h with h | h
      · rw [hd] at h
        exact absurd h (by simp)
      · rw [hd] at h
        simp [PricingCalculator.EffectivePrice, hb, hd, h]
  · intro d hd hv
    rw [hd] at hv
    simp [PricingCalculator.EffectivePrice, hb, hd, hv, Money.MultiplyBy]

/-- C3 witness: a 19.99 base price with a 20% discount valid over [0, 100]
queried at t = 50 gives 1999/100 * (1 - 1/5). -/
theorem effective_price_spec_witness :
    PricingCalculator.EffectivePrice
        (some (RehydrateProduct "w3" "N" "D" "C" (some (1999 / 100 : ℚ))
          (some ⟨(1 / 5 : ℚ), 0, 100⟩) ProductStatusActive none 0 0)) 50
      = some ((1999 / 100 : ℚ) * (1 - 1 / 5)) :=
  (effective_price_spec
      (RehydrateProduct "w3" "N" "D" "C" (some (1999 / 100 : ℚ))
        (some ⟨(1 / 5 : ℚ), 0, 100⟩) ProductStatusActive none 0 0)
      (1999 / 100 : ℚ) 50 rfl).2 ⟨(1 / 5 : ℚ), 0, 100⟩ rfl (by decide)

/-- C4: ApplyDiscount returns ProductNotActive exactly when the status is
not Active; returns InvalidDiscountPeriod exactly when the status is
Active and the discount is absent or not valid at now; on every error the
aggregate is unchanged; on success it replaces the discount, marks the
discount field dirty, sets updatedAt, and appends exactly one
DiscountApplied event. -/
theorem apply_discount_spec (p : Product) (d : Option Discount) (now : Time) :
    ((p.ApplyDiscount d now).1 = some DomainError.ProductNotActive
        ↔ p.status ≠ ProductStatusActive) ∧
    ((p.ApplyDiscount d now).1 = some DomainError.InvalidDiscountPeriod
        ↔ (p.status = ProductStatusActive ∧
            (d = none ∨ Discount.IsValidAt d now = false))) ∧
    (∀ e, (p.ApplyDiscount d now).1 = some e → (p.ApplyDiscount d now).2 = p) ∧
    ((p.ApplyDiscount d now).1 = none →
      (p.ApplyDiscount d now).2
        = { p with discount := d, updatedAt := now
                   changes := p.changes.MarkDirty FieldDiscount
                   events := p.events ++ [DomainEvent.DiscountApplied now p.id] }) := by
  unfold Product.ApplyDiscount
  by_cases h1 : p.status ≠ ProductStatusActive
  · rw [if_pos h1]
    exact ⟨iff_of_true rfl h1,
           iff_of_false (fun h => absurd (Option.some.inj h) (by decide))
             (fun hc => absurd hc.1 h1),
           fun e _ => rfl,
           fun h => Option.noConfusion h⟩
  · rw [if_neg h1]
    have ha : p.status = ProductStatusActive := not_not.mp h1
    by_cases h2 : d = none ∨ Discount.IsValidAt d now = false
    · rw [if_pos h2]
      exact ⟨iff_of_false (fun h => absurd (Option.some.inj h) (by decide))
               (fun hc => absurd ha hc),
             iff_of_true rfl ⟨ha, h2⟩,
             fun e _ => rfl,
             fun h => Option.noConfusion h⟩
    · rw [if_neg h2]
      exact ⟨iff_of_false (fun h => Option.noConfusion h) (fun hc => absurd ha hc),
             iff_of_false (fun h => Option.noConfusion h) (fun hc => absurd hc.2 h2),
             fun e he => Option.noConfusion he,
             fun _ => rfl⟩

/-- C4 witness: applying a discount to an Inactive product leaves it
unchanged, and applying a valid discount to an Active product yields the
updated aggregate. -/
theorem apply_discount_spec_witness :
    ((RehydrateProduct "w4" "N" "D" "C" (some 10) none ProductStatusInactive
        none 0 0).ApplyDiscount (some ⟨(1 / 5 : ℚ), 0, 100⟩) 50).2
      = RehydrateProduct "w4" "N" "D" "C" (some 10) none ProductStatusInactive
          none 0 0 ∧
    ((RehydrateProduct "w5" "N" "D" "C" (some 10) none ProductStatusActive
        none 0 0).ApplyDiscount (some ⟨(1 / 5 : ℚ), 0, 100⟩) 50).2
      = { RehydrateProduct "w5" "N" "D" "C" (some 10) none ProductStatusActive
            none 0 0 with
          discount := some ⟨(1 / 5 : ℚ), 0, 100⟩, updatedAt := 50
          changes := (RehydrateProduct "w5" "N" "D" "C" (some 10) none
              ProductStatusActive none 0 0).changes.MarkDirty FieldDiscount
          events := (RehydrateProduct "w5" "N" "D" "C" (some 10) none
              ProductStatusActive none 0 0).events
            ++ [DomainEvent.DiscountApplied 50 "w5"] } :=
  ⟨(apply_discount_spec
      (RehydrateProduct "w4" "N" "D" "C" (some 10) none ProductStatusInactive
        none 0 0) (some ⟨(1 / 5 : ℚ), 0, 100⟩) 50).2.2.1
      DomainError.ProductNotActive (by decide),
   (apply_discount_spec
      (RehydrateProduct "w5" "N" "D" "C" (some 10) none ProductStatusActive
        none 0 0) (some ⟨(1 / 5 : ℚ), 0, 100⟩) 50).2.2.2 (by decide)⟩

/-- C5 counterexample: the reserved Draft status is representable (the
repository rehydrates whatever status string is persisted), and Activate
on a Draft product transitions it and appends a ProductActivated event
even though the product was not Inactive — refuting "appends exactly one
Activated event iff p was Inactive". -/
theorem activate_draft_counterexample :
    (RehydrateProduct "c5" "N" "D" "C" (some 10) none ProductStatusDraft
        none 0 0).status ≠ ProductStatusInactive ∧
    ((RehydrateProduct "c5" "N" "D" "C" (some 10) none ProductStatusDraft
        none 0 0).Activate 5).events = [DomainEvent.ProductActivated 5 "c5"] ∧
    ((RehydrateProduct "c5" "N" "D" "C" (some 10) none ProductStatusDraft
        none 0 0).Activate 5).status = ProductStatusActive := by
  refine ⟨by decide, ?_, ?_⟩ <;> rfl

/-- C5 amended: Activate transitions (with updatedAt bump, status dirty
flag, and exactly one Activated event) exactly when the status is neither
Active nor Archived (Inactive, or the reserved Draft state, or any other
persisted status string), and is a silent no-op otherwise; Deactivate is
symmetric; Archive from any non-Archived state sets status Archived and
archivedAt (exactly once, idempotent when already Archived), and never
appends a domain event. -/
theorem lifecycle_transitions_spec (p : Product) (now : Time) :
    ((p.status = ProductStatusActive ∨ p.status = ProductStatusArchived) →
        p.Activate now = p) ∧
    ((p.status ≠ ProductStatusActive ∧ p.status ≠ ProductStatusArchived) →
        p.Activate now
          = { p with status := ProductStatusActive, updatedAt := now
                     changes := p.changes.MarkDirty FieldStatus
                     events := p.events
                        ++ [DomainEvent.ProductActivated now p.id] }) ∧
    ((p.status = ProductStatusInactive ∨ p.status = ProductStatusArchived) →
        p.Deactivate now = p) ∧
    ((p.status ≠ ProductStatusInactive ∧ p.status ≠ ProductStatusArchived) →
        p.Deactivate now
          = { p with status := ProductStatusInactive, updatedAt := now
                     changes := p.changes.MarkDirty FieldStatus
                     events := p.events
                        ++ [DomainEvent.ProductDeactivated now p.id] }) ∧
    (p.status = ProductStatusArchived → p.Archive now = p) ∧
    (p.status ≠ ProductStatusArchived →
        p.Archive now
          = { p with status := ProductStatusArchived, archivedAt := some now
                     updatedAt := now
                     changes := (p.changes.MarkDirty FieldStatus).MarkDirty
                        FieldArchivedAt }) ∧
    ((p.Archive now).events = p.events) ∧
    ((p.Archive now).archivedAt
        = if p.status = ProductStatusArchived then p.archivedAt else some now) := by
  have hAct : p.Activate now
      = (if p.status = ProductStatusActive then p
         else if p.status = ProductStatusArchived then p
         else { p with status := ProductStatusActive, updatedAt := now
                       changes := p.changes.MarkDirty FieldStatus
                       events := p.events
                          ++ [DomainEvent.ProductActivated now p.id] }) := rfl
  have hDeact : p.Deactivate now
      = (if p.status = ProductStatusInactive then p
         else if p.status = ProductStatusArchived then p
         else { p with status := ProductStatusInactive, updatedAt := now
                       changes := p.changes.MarkDirty FieldStatus
                       events := p.events
                          ++ [DomainEvent.ProductDeactivated now p.id] }) := rfl
  have hArch : p.Archive now
      = (if p.status = ProductStatusArchived then p
         else { p with status := ProductStatusArchived, archivedAt := some now
                       updatedAt := now
                       changes := (p.changes.MarkDirty FieldStatus).MarkDirty
                          FieldArchivedAt }) := rfl
  refine ⟨?_, ?_, ?_, ?_, ?_, ?_, ?_, ?_⟩
  · rintro (h | h)
    · rw [hAct, if_pos h]
    · rw [hAct, if_neg (by rw [h]; decide), if_pos h]
  · rintro ⟨hA, hAr⟩
    rw [hAct, if_neg hA, if_neg hAr]
  · rintro (h | h)
    · rw [hDeact, if_pos h]
    · rw [hDeact, if_neg (by rw [h]; decide), if_pos h]
  · rintro ⟨hI, hAr⟩
    rw [hDeact, if_neg hI, if_neg hAr]
  · intro h
    rw [hArch, if_pos h]
  · intro h
    rw [hArch, if_neg h]
  · by_cases h : p.status = ProductStatusArchived
    · rw [hArch, if_pos h]
    · rw [hArch, if_neg h]
  · by_cases h : p.status = ProductStatusArchived
    · rw [hArch, if_pos h, if_pos h]
    · rw [hArch, if_neg h, if_neg h]

/-- C5 witness: an Inactive product activates to Active, and archiving it
sets archivedAt. -/
theorem lifecycle_transitions_spec_witness :
    ((RehydrateProduct "c5w" "N" "D" "C" (some 10) none ProductStatusInactive
        none 0 0).Activate 5).status = ProductStatusActive ∧
    ((RehydrateProduct "c5w" "N" "D" "C" (some 10) none ProductStatusInactive
        none 0 0).Archive 5).archivedAt = some 5 := by
  constructor
  · rw [(lifecycle_transitions_spec
        (RehydrateProduct "c5w" "N" "D" "C" (some 10) none ProductStatusInactive
          none 0 0) 5).2.1 ⟨by decide, by decide⟩]
  · rw [(lifecycle_transitions_spec
        (RehydrateProduct "c5w" "N" "D" "C" (some 10) none ProductStatusInactive
          none 0 0) 5).2.2.2.2.2.1 (by decide)]

/-- C6: UpdateDetails changes exactly the fields whose supplied value is
non-empty and differs from the current one, marks each such field dirty
individually, appends exactly one Updated event and sets updatedAt exactly
when at least one field changed, changes nothing otherwise, and never
touches the other fields. -/
theorem update_details_spec (p : Product) (n d c : String) (now : Time) :
    ((p.UpdateDetails n d c now).name
        = if n ≠ "" ∧ n ≠ p.name then n else p.name) ∧
    ((p.UpdateDetails n d c now).description
        = if d ≠ "" ∧ d ≠ p.description then d else p.description) ∧
    ((p.UpdateDetails n d c now).category
        = if c ≠ "" ∧ c ≠ p.category then c else p.category) ∧
    (∀ f : String, f ∈ (p.UpdateDetails n d c now).changes.dirtyFields ↔
        ((f = FieldName ∧ n ≠ "" ∧ n ≠ p.name) ∨
         (f = FieldDescription ∧ d ≠ "" ∧ d ≠ p.description) ∨
         (f = FieldCategory ∧ c ≠ "" ∧ c ≠ p.category) ∨
         f ∈ p.changes.dirtyFields)) ∧
    (((n ≠ "" ∧ n ≠ p.name) ∨ (d ≠ "" ∧ d ≠ p.description) ∨
        (c ≠ "" ∧ c ≠ p.category)) →
      (p.UpdateDetails n d c now).events
          = p.events ++ [DomainEvent.ProductUpdated now p.id] ∧
      (p.UpdateDetails n d c now).updatedAt = now) ∧
    (¬((n ≠ "" ∧ n ≠ p.name) ∨ (d ≠ "" ∧ d ≠ p.description) ∨
        (c ≠ "" ∧ c ≠ p.category)) →
      p.UpdateDetails n d c now = p) ∧
    ((p.UpdateDetails n d c now).id = p.id ∧
     (p.UpdateDetails n d c now).basePrice = p.basePrice ∧
     (p.UpdateDetails n d c now).discount = p.discount ∧
     (p.UpdateDetails n d c now).status = p.status ∧
     (p.UpdateDetails n d c now).archivedAt = p.archivedAt ∧
     (p.UpdateDetails n d c now).createdAt = p.createdAt) := by
  refine ⟨?_, ?_, ?_, ?_, ?_, ?_, ?_⟩ <;>
  · by_cases h1 : n ≠ "" ∧ n ≠ p.name <;>
    by_cases h2 : d ≠ "" ∧ d ≠ p.description <;>
    by_cases h3 : c ≠ "" ∧ c ≠ p.category <;>
      simp [Product.UpdateDetails, ChangeTracker.MarkDirty, h1, h2, h3,
            Finset.mem_insert] <;>
      tauto

/-- C6 witness: changing only the name emits one Updated event; supplying
the identical name (and empty strings elsewhere) leaves the product
untouched. -/
theorem update_details_spec_witness :
    ((RehydrateProduct "c6" "Old" "OldD" "OldC" (some 10) none
        ProductStatusInactive none 0 0).UpdateDetails "New" "" "" 7).events
      = (RehydrateProduct "c6" "Old" "OldD" "OldC" (some 10) none
          ProductStatusInactive none 0 0).events
        ++ [DomainEvent.ProductUpdated 7
            (RehydrateProduct "c6" "Old" "OldD" "OldC" (some 10) none
              ProductStatusInactive none 0 0).id] ∧
    ((RehydrateProduct "c6" "Old" "OldD" "OldC" (some 10) none
        ProductStatusInactive none 0 0).UpdateDetails "Old" "" "" 7)
      = RehydrateProduct "c6" "Old" "OldD" "OldC" (some 10) none
          ProductStatusInactive none 0 0 :=
  ⟨((update_details_spec
      (RehydrateProduct "c6" "Old" "OldD" "OldC" (some 10) none
        ProductStatusInactive none 0 0) "New" "" "" 7).2.2.2.2.1
      (by decide)).1,
   (update_details_spec
      (RehydrateProduct "c6" "Old" "OldD" "OldC" (some 10) none
        ProductStatusInactive none 0 0) "Old" "" "" 7).2.2.2.2.2.1
      (by decide)⟩

/-- C1 (code evidence at the failing input): an Archived product
rehydrated with a discount is renamed by UpdateDetails and stripped of its
discount by RemoveDiscount, each time appending a domain event — the
Archived state is not immutable under these two operations, contradicting
the documented terminal-state immutability. -/
theorem archived_product_mutability :
    (RehydrateProduct "c1" "Old" "Ds" "Ct" (some 10)
        (some ⟨(1 / 5 : ℚ), 0, 100⟩) ProductStatusArchived (some 1) 0 1).status
      = ProductStatusArchived ∧
    ((RehydrateProduct "c1" "Old" "Ds" "Ct" (some 10)
        (some ⟨(1 / 5 : ℚ), 0, 100⟩) ProductStatusArchived (some 1) 0
        1).UpdateDetails "New" "" "" 5).name = "New" ∧
    ((RehydrateProduct "c1" "Old" "Ds" "Ct" (some 10)
        (some ⟨(1 / 5 : ℚ), 0, 100⟩) ProductStatusArchived (some 1) 0
        1).UpdateDetails "New" "" "" 5).events
      = [DomainEvent.ProductUpdated 5 "c1"] ∧
    ((RehydrateProduct "c1" "Old" "Ds" "Ct" (some 10)
        (some ⟨(1 / 5 : ℚ), 0, 100⟩) ProductStatusArchived (some 1) 0
        1).RemoveDiscount 5).discount = none ∧
    ((RehydrateProduct "c1" "Old" "Ds" "Ct" (some 10)
        (some ⟨(1 / 5 : ℚ), 0, 100⟩) ProductStatusArchived (some 1) 0
        1).RemoveDiscount 5).events
      = [DomainEvent.DiscountRemoved 5 "c1"] := by
  exact ⟨rfl, by decide, by decide, rfl, rfl⟩

/-- C2 counterexample: a successful commit in the update interactor clears
the events but leaves the name field dirty — the ChangeTracker dirty-field
set is not reset after a successful commit. -/
theorem commit_success_leaves_dirty_counterexample :
    (UpdateProductExecute
        (RehydrateProduct "c2" "Old" "Ds" "Ct" (some 10) none
          ProductStatusActive none 0 0)
        (some "New") none none 5 true).1 = none ∧
    (UpdateProductExecute
        (RehydrateProduct "c2" "Old" "Ds" "Ct" (some 10) none
          ProductStatusActive none 0 0)
        (some "New") none none 5 true).2.changes.dirtyFields ≠ ∅ := by
  exact ⟨by decide, by decide⟩

/-- C2 amended: for every write operation (create, update-details,
activate, deactivate, apply-discount, remove-discount, archive), a
successful commit clears the pending domain events — the six
event-emitting interactors call ClearDomainEvents; the archive interactor
does not, but Archive appends no event, so the aggregate's pending list
after success equals what it was on load (empty for any rehydrated
aggregate) — and leaves the dirty-field set exactly as the domain
mutation left it (no interactor resets the ChangeTracker); a failed
commit leaves the in-memory aggregate — pending events and dirty flags
included — exactly as it was before the commit attempt. -/
theorem interactor_commit_effects_spec (p : Product)
    (id nm ds ct : String) (num den : Int)
    (name description category : Option String) (pct : ℚ)
    (startDate endDate now : Time) :
    (∀ q : Product, (q.ClearDomainEvents).events = [] ∧
        (q.ClearDomainEvents).changes = q.changes) ∧
    (∀ bp, NewMoneyFromFraction num den = Except.ok bp →
      CreateProductExecute id nm ds ct num den now true
          = (none, some (NewProduct id nm ds ct (some bp) now).ClearDomainEvents) ∧
      CreateProductExecute id nm ds ct num den now false
          = (some UsecaseError.CommitFailed,
             some (NewProduct id nm ds ct (some bp) now))) ∧
    (UpdateProductExecute p name description category now true
        = (none, (p.UpdateDetails (name.getD "") (description.getD "")
            (category.getD "") now).ClearDomainEvents)) ∧
    (UpdateProductExecute p name description category now false
        = (some UsecaseError.CommitFailed,
           p.UpdateDetails (name.getD "") (description.getD "")
             (category.getD "") now)) ∧
    (ActivateProductExecute p now true
        = (none, (p.Activate now).ClearDomainEvents)) ∧
    (ActivateProductExecute p now false
        = (some UsecaseError.CommitFailed, p.Activate now)) ∧
    (DeactivateProductExecute p now true
        = (none, (p.Deactivate now).ClearDomainEvents)) ∧
    (DeactivateProductExecute p now false
        = (some UsecaseError.CommitFailed, p.Deactivate now)) ∧
    (∀ dd, NewDiscount (some pct) startDate endDate = Except.ok dd →
      ∀ e, p.ApplyDiscount (some dd) now = (none, e) →
        ApplyDiscountExecute p pct startDate endDate now true
            = (none, e.ClearDomainEvents) ∧
        ApplyDiscountExecute p pct startDate endDate now false
            = (some UsecaseError.CommitFailed, e)) ∧
    (RemoveDiscountExecute p now true
        = (none, (p.RemoveDiscount now).ClearDomainEvents)) ∧
    (RemoveDiscountExecute p now false
        = (some UsecaseError.CommitFailed, p.RemoveDiscount now)) ∧
    (ArchiveProductExecute p now true = (none, p.Archive now)) ∧
    (ArchiveProductExecute p now false
        = (some UsecaseError.CommitFailed, p.Archive now)) ∧
    ((p.Archive now).events = p.events) ∧
    (p.events = [] → (ArchiveProductExecute p now true).2.events = []) := by
  have hArch : p.Archive now
      = (if p.status = ProductStatusArchived then p
         else { p with status := ProductStatusArchived, archivedAt := some now
                       updatedAt := now
                       changes := (p.changes.MarkDirty FieldStatus).MarkDirty
                          FieldArchivedAt }) := rfl
  have hArchEvents : (p.Archive now).events = p.events := by
    rw [hArch]
    by_cases h : p.status = ProductStatusArchived
    · rw [if_pos h]
    · rw [if_neg h]
  refine ⟨fun q => ⟨rfl, rfl⟩, ?_, rfl, rfl, rfl, rfl, rfl, rfl, ?_,
      rfl, rfl, rfl, rfl, hArchEvents, fun hev => ?_⟩
  · intro bp hbp
    constructor <;> simp [CreateProductExecute, hbp]
  · intro dd hok e he
    constructor <;> simp [ApplyDiscountExecute, hok, he]
  · show (p.Archive now).events = []
    rw [hArchEvents, hev]

/-- C2 witness: concrete runs of four interactors — a successful create
commit yields the event-cleared aggregate, a successful update commit
ends with no pending events, a failed apply-discount commit reports
CommitFailed with the post-mutation aggregate intact, and a successful
archive commit on a rehydrated (event-free) aggregate ends with no
pending events. -/
theorem interactor_commit_effects_spec_witness :
    (CreateProductExecute "wc" "N" "D" "C" 1999 100 5 true).2
        = some (NewProduct "wc" "N" "D" "C"
            (some (Rat.divInt 1999 100)) 5).ClearDomainEvents ∧
    (UpdateProductExecute
        (RehydrateProduct "w2" "Old" "Ds" "Ct" (some 10) none
          ProductStatusActive none 0 0)
        (some "New") none none 5 true).2.events = [] ∧
    (ApplyDiscountExecute
        (RehydrateProduct "wA" "N" "D" "C" (some 10) none
          ProductStatusActive none 0 0)
        (1 / 5 : ℚ) 0 100 50 false).1 = some UsecaseError.CommitFailed ∧
    (ArchiveProductExecute
        (RehydrateProduct "wR" "N" "D" "C" (some 10) none
          ProductStatusActive none 0 0) 7 true).2.events = [] := by
  refine ⟨?_, ?_, ?_, ?_⟩
  · rw [((interactor_commit_effects_spec
      (RehydrateProduct "w2" "Old" "Ds" "Ct" (some 10) none
        ProductStatusActive none 0 0)
      "wc" "N" "D" "C" 1999 100
      (some "New") none none (1 / 5 : ℚ) 0 100 5).2.1
      (Rat.divInt 1999 100) rfl).1]
  · rw [(interactor_commit_effects_spec
      (RehydrateProduct "w2" "Old" "Ds" "Ct" (some 10) none
        ProductStatusActive none 0 0)
      "wc" "N" "D" "C" 1999 100
      (some "New") none none (1 / 5 : ℚ) 0 100 5).2.2.1]
    rfl
  · rw [((interactor_commit_effects_spec
      (RehydrateProduct "wA" "N" "D" "C" (some 10) none
        ProductStatusActive none 0 0)
      "wc" "N" "D" "C" 1999 100
      (some "New") none none (1 / 5 : ℚ) 0 100 50).2.2.2.2.2.2.2.2.1
      ⟨(1 / 5 : ℚ), 0, 100⟩ (by norm_num [NewDiscount])
      { RehydrateProduct "wA" "N" "D" "C" (some 10) none
          ProductStatusActive none 0 0 with
        discount := some ⟨(1 / 5 : ℚ), 0, 100⟩, updatedAt := 50
        changes := (RehydrateProduct "wA" "N" "D" "C" (some 10) none
            ProductStatusActive none 0 0).changes.MarkDirty FieldDiscount
        events := (RehydrateProduct "wA" "N" "D" "C" (some 10) none
            ProductStatusActive none 0 0).events
          ++ [DomainEvent.DiscountApplied 50 "wA"] }
      rfl).2]
  · exact (interactor_commit_effects_spec
      (RehydrateProduct "wR" "N" "D" "C" (some 10) none
        ProductStatusActive none 0 0)
      "wc" "N" "D" "C" 1999 100
      (some "New") none none (1 / 5 : ℚ) 0 100
      7).2.2.2.2.2.2.2.2.2.2.2.2.2.2 rfl

end Catalog
